import Mathlib

/-!
Shallow embedding of the snake-game simulation core
(`src/unnamed/part_000`, multi-fruit version of the game; the
single-food `src/src/main.cpp` shares the same Snake and collision
logic).

Modelling choices:
* `Vector2` grid cells hold small integer coordinates, so they are
  embedded as pairs of `Int` (`Vec2`).
* The C++ `deque<Vector2>` body is a `List Vec2`, head first;
  `push_front` is `::`, `pop_back` is `List.dropLast`, `pop_front`
  on a copy is `List.tail`.
* Randomness (`GetRandomValue` pairs produced by
  `GenerateRandomCell`) is an explicit finite stream of candidate
  cells (`List Vec2`).  The rejection loop of `GenerateRandomPos`
  walks that stream; running out of candidates yields `none`, which
  models only the non-terminating / unfinished loop, so every
  simulation step is `Option`-valued.
* `double speed` is embedded as an exact rational (`ℚ`): the literals
  0.2, 0.98 and 0.07 become 1/5, 49/50 and 7/100.
* The globals `high_score` and `temp_score` are carried as fields of
  the `Game` state.  Texture indices, sounds and all drawing are
  cosmetic I/O and are omitted, except that each wall-collision sound
  (`PlaySound(wall)`) is counted, since the spec speaks about the
  number of collision signals per tick.
-/

/-- A grid cell or direction vector: the raylib `Vector2` restricted to
the integral values this program stores in it. -/
structure Vec2 where
  x : Int
  y : Int
deriving DecidableEq

/-- `Vector2Add` from raymath: componentwise addition. -/
def Vec2.add (a b : Vec2) : Vec2 := ⟨a.x + b.x, a.y + b.y⟩

/-- `ElementInDeque`: linear scan for an equal element, as in the
source's loop over the deque. -/
def elementInDeque (element : Vec2) : List Vec2 → Bool
  | [] => false
  | c :: rest => if c = element then true else elementInDeque element rest

/-- Grid dimension: `int cellcount = 25`. -/
def cellcount : Int := 25

theorem elementInDeque_iff_mem (e : Vec2) (l : List Vec2) :
    elementInDeque e l = true ↔ e ∈ l := by
  induction l with
  | nil => simp [elementInDeque]
  | cons c rest ih =>
      by_cases h : c = e
      · subst h; simp [elementInDeque]
      · simp [elementInDeque, h, ih]
        exact fun h' => absurd h'.symm h

theorem elementInDeque_eq_false_iff (e : Vec2) (l : List Vec2) :
    elementInDeque e l = false ↔ e ∉ l := by
  rw [← elementInDeque_iff_mem e l]
  cases elementInDeque e l <;> simp

/-- The `Snake` class: body (head first), direction, and the
pending-growth flag `addSegment`. -/
structure Snake where
  addSegment : Bool
  body : List Vec2
  direction : Vec2
deriving DecidableEq

/-- The initial snake: `body = {{6,9},{5,9},{4,9}}`, `direction = {1,0}`,
`addSegment = false` (member initializers of the class). -/
def Snake.start : Snake :=
  { addSegment := false
    body := [⟨6, 9⟩, ⟨5, 9⟩, ⟨4, 9⟩]
    direction := ⟨1, 0⟩ }

/-- `Snake::Update`: push the new head `body[0] + direction` at the
front; if `addSegment` is set clear it, else pop the back. -/
def Snake.update (s : Snake) : Snake :=
  let pushed := (s.body.headD ⟨0, 0⟩).add s.direction :: s.body
  if s.addSegment then
    { s with body := pushed, addSegment := false }
  else
    { s with body := pushed.dropLast }

/-- `Snake::Reset`: restore the initial body and direction.  (The
source assigns only `body` and `direction`; `addSegment` is left as it
was.) -/
def Snake.reset (s : Snake) : Snake :=
  { s with body := [⟨6, 9⟩, ⟨5, 9⟩, ⟨4, 9⟩], direction := ⟨1, 0⟩ }

/-- `Food::GenerateRandomPos`: walk the stream of random candidate
cells (each produced by `GenerateRandomCell`), rejecting while the
candidate is in `snakeBody`.  Returns the chosen cell and the unused
rest of the stream; `none` when the finite stream is exhausted (the
loop did not terminate within the modelled randomness). -/
def generateRandomPos : List Vec2 → List Vec2 → Option (Vec2 × List Vec2)
  | [], _ => none
  | c :: rest, snakeBody =>
      if elementInDeque c snakeBody then generateRandomPos rest snakeBody
      else some (c, rest)

theorem generateRandomPos_not_mem {cands snakeBody : List Vec2}
    {p : Vec2} {rest : List Vec2}
    (h : generateRandomPos cands snakeBody = some (p, rest)) :
    p ∉ snakeBody := by
  induction cands with
  | nil => simp [generateRandomPos] at h
  | cons c cs ih =>
      rw [generateRandomPos] at h
      by_cases hc : elementInDeque c snakeBody
      · rw [if_pos hc] at h
        exact ih h
      · rw [if_neg hc] at h
        cases h
        exact (elementInDeque_eq_false_iff p snakeBody).mp
          (Bool.not_eq_true _ ▸ (by simpa using hc))

/-- The four direction keys handled in `main`. -/
inductive Key where
  | up
  | down
  | left
  | right
deriving DecidableEq

/-- The direction a key requests ({0,-1} for up, etc.). -/
def Key.dir : Key → Vec2
  | .up => ⟨0, -1⟩
  | .down => ⟨0, 1⟩
  | .left => ⟨-1, 0⟩
  | .right => ⟨1, 0⟩

/-- The direction-key handlers in `main`: each key overwrites
`snake.direction` unless the guard on the current direction fails
(`UP` requires `direction.y != 1`, `DOWN` `y != -1`, `LEFT` `x != 1`,
`RIGHT` `x != -1`). -/
def applyKey (k : Key) (d : Vec2) : Vec2 :=
  match k with
  | .up => if d.y ≠ 1 then ⟨0, -1⟩ else d
  | .down => if d.y ≠ -1 then ⟨0, 1⟩ else d
  | .left => if d.x ≠ 1 then ⟨-1, 0⟩ else d
  | .right => if d.x ≠ -1 then ⟨1, 0⟩ else d

/-- Componentwise negation of a direction. -/
def Vec2.neg (v : Vec2) : Vec2 := ⟨-v.x, -v.y⟩

/-- The four unit directions a snake can have. -/
def isUnitDir (d : Vec2) : Prop :=
  d = ⟨1, 0⟩ ∨ d = ⟨-1, 0⟩ ∨ d = ⟨0, 1⟩ ∨ d = ⟨0, -1⟩

instance (d : Vec2) : Decidable (isUnitDir d) := by
  unfold isUnitDir; infer_instance

/-- The speed adjustment applied on each food eat:
`if (speed >= 0.07) speed *= 0.98;` with `double speed` embedded as an
exact rational. -/
def speedAfterEat (sp : ℚ) : ℚ :=
  if sp ≥ 7 / 100 then sp * (49 / 50) else sp

/-- `Game::CheckCollisionWithFood`, as a fold over the fruit list.
Arguments thread the state the loop body mutates: the candidate
stream, the remaining fruits (positions), `snake.addSegment`, `score`
and `speed`.  `head`/`body` are `snake.body[0]` and `snake.body`,
which the loop only reads.  For each fruit equal to the head the fruit
is respawned via `GenerateRandomPos(snake.body)`, `addSegment` is set,
the score incremented, and the speed multiplied when at or above the
floor.  Returns the remaining stream, updated fruit positions,
`addSegment`, `score` and `speed`. -/
def checkCollisionWithFood (head : Vec2) (body : List Vec2) :
    List Vec2 → List Vec2 → Bool → Int → ℚ →
      Option (List Vec2 × List Vec2 × Bool × Int × ℚ)
  | cands, [], a, sc, sp => some (cands, [], a, sc, sp)
  | cands, f :: rest, a, sc, sp =>
      if f = head then
        match generateRandomPos cands body with
        | none => none
        | some (p, cands') =>
            match checkCollisionWithFood head body cands' rest true (sc + 1)
                (speedAfterEat sp) with
            | none => none
            | some (cs, fs, a', sc', sp') => some (cs, p :: fs, a', sc', sp')
      else
        match checkCollisionWithFood head body cands rest a sc sp with
        | none => none
        | some (cs, fs, a', sc', sp') => some (cs, f :: fs, a', sc', sp')

/-- The fruit-spawning loop (`for i in 0..n: fruits.push_back(Food(snake.body))`):
each `Food` constructor calls `GenerateRandomPos(snakeBody)` against the
same snake body.  Returns the fruit positions and the unused stream. -/
def spawnFruits : Nat → List Vec2 → List Vec2 → Option (List Vec2 × List Vec2)
  | 0, _, cands => some ([], cands)
  | n + 1, snakeBody, cands =>
      match generateRandomPos cands snakeBody with
      | none => none
      | some (p, cands') =>
          match spawnFruits n snakeBody cands' with
          | none => none
          | some (fs, cands'') => some (p :: fs, cands'')

/-- The `Game` class state, together with the globals it mutates
(`high_score`, `temp_score`). -/
structure Game where
  score : Int
  speed : ℚ
  running : Bool
  game_over : Bool
  snake : Snake
  fruits : List Vec2
  high_score : Int
  temp_score : Int
deriving DecidableEq

/-- `Game::GameOver`: set `game_over`, reset the snake, clear and
respawn the three fruits against the reset body, restore `speed = 0.2`,
stop running, update `high_score` (`if (score >= high_score)`),
store `temp_score = score`, zero the score. -/
def Game.gameOverStep (g : Game) (cands : List Vec2) :
    Option (Game × List Vec2) :=
  let s' := g.snake.reset
  match spawnFruits 3 s'.body cands with
  | none => none
  | some (fs, cands') =>
      some ({ g with
                game_over := true
                snake := s'
                fruits := fs
                speed := 1 / 5
                running := false
                high_score := if g.score ≥ g.high_score then g.score else g.high_score
                temp_score := g.score
                score := 0 }, cands')

/-- The second `if` of `Game::CheckCollisionWithEdges` (the `y`
check), applied to whatever state the first `if` left behind.  `n`
counts the wall-collision signals (`PlaySound(wall)`) emitted so far
in this tick. -/
def Game.checkEdgesY (g : Game) (cands : List Vec2) (n : Nat) :
    Option (Game × List Vec2 × Nat) :=
  let h := g.snake.body.headD ⟨0, 0⟩
  if h.y = cellcount ∨ h.y = -1 then
    match g.gameOverStep cands with
    | none => none
    | some (g', cands') => some (g', cands', n + 1)
  else
    some (g, cands, n)

/-- `Game::CheckCollisionWithEdges`: the `x` check (possibly calling
`GameOver` and playing the wall sound) followed by the `y` check on
the resulting state. -/
def Game.checkCollisionWithEdges (g : Game) (cands : List Vec2) :
    Option (Game × List Vec2 × Nat) :=
  let h := g.snake.body.headD ⟨0, 0⟩
  if h.x = cellcount ∨ h.x = -1 then
    match g.gameOverStep cands with
    | none => none
    | some (g', cands') => g'.checkEdgesY cands' 1
  else
    g.checkEdgesY cands 0

/-- `Game::CheckCollisionsWithTail`: copy the body, pop the front, and
if the head occurs in the headless copy call `GameOver` and play the
wall sound. -/
def Game.checkCollisionsWithTail (g : Game) (cands : List Vec2) (n : Nat) :
    Option (Game × List Vec2 × Nat) :=
  let headless := g.snake.body.tail
  if elementInDeque (g.snake.body.headD ⟨0, 0⟩) headless then
    match g.gameOverStep cands with
    | none => none
    | some (g', cands') => some (g', cands', n + 1)
  else
    some (g, cands, n)

/-- `Game::Update`: when running, advance the snake then run the food,
edge and tail checks in order.  The returned `Nat` counts the
wall-collision signals emitted during the tick. -/
def Game.update (g : Game) (cands : List Vec2) :
    Option (Game × List Vec2 × Nat) :=
  if g.running then
    let s1 := g.snake.update
    match checkCollisionWithFood (s1.body.headD ⟨0, 0⟩) s1.body cands
        g.fruits s1.addSegment g.score g.speed with
    | none => none
    | some (cands1, fruits', a', sc', sp') =>
        let g2 : Game :=
          { g with
              snake := { s1 with addSegment := a' }
              fruits := fruits'
              score := sc'
              speed := sp' }
        match g2.checkCollisionWithEdges cands1 with
        | none => none
        | some (g3, cands3, n) => g3.checkCollisionsWithTail cands3 n
  else
    some (g, cands, 0)

/-- The `Game` constructor: initial members (`score = 0`,
`speed = 0.2`, not running, not game over, fresh snake, globals
`high_score = 0` and `temp_score` zero-initialized) and the loop
spawning three fruits against the initial snake body. -/
def Game.construct (cands : List Vec2) : Option (Game × List Vec2) :=
  match spawnFruits 3 Snake.start.body cands with
  | none => none
  | some (fs, cands') =>
      some ({ score := 0
              speed := 1 / 5
              running := false
              game_over := false
              snake := Snake.start
              fruits := fs
              high_score := 0
              temp_score := 0 }, cands')

/-- Game states reachable at tick boundaries: the constructed initial
state, the start/restart inputs (ENTER, start button, restart button
all set `running := true` and clear `game_over`), a direction-key
press (which also sets `running := true`), and a tick
(`Game::Update`), which internally performs the round end. -/
inductive Game.Reachable : Game → Prop
  | construct (cands : List Vec2) (g : Game) (rest : List Vec2) :
      Game.construct cands = some (g, rest) → Game.Reachable g
  | start {g : Game} :
      Game.Reachable g →
      Game.Reachable { g with running := true, game_over := false }
  | key {g : Game} (k : Key) :
      Game.Reachable g →
      Game.Reachable
        { g with
            snake := { g.snake with direction := applyKey k g.snake.direction }
            running := true }
  | tick {g : Game} {cands : List Vec2} {g' : Game} {rest : List Vec2} {n : Nat} :
      Game.Reachable g → Game.update g cands = some (g', rest, n) →
      Game.Reachable g'

/-- The food/snake disjointness invariant: no fruit position lies on a
cell of the snake body. -/
def FoodSafe (g : Game) : Prop :=
  ∀ f ∈ g.fruits, f ∉ g.snake.body

/-! ### C1: Snake.update pushes head + direction, growth semantics -/

theorem snake_update_body_decomp (s : Snake) (hb : s.body ≠ []) :
    ∃ t : List Vec2,
      s.update.body = (s.body.headD ⟨0, 0⟩).add s.direction :: t ∧
      t ⊆ s.body ∧
      t = (if s.addSegment then s.body else s.body.dropLast) := by
  obtain ⟨a, body, dir⟩ := s
  simp only at hb
  obtain ⟨b, bs, rfl⟩ := List.exists_cons_of_ne_nil hb
  cases a
  · refine ⟨(b :: bs).dropLast, ?_, (List.dropLast_sublist _).subset, by simp⟩
    simp only [Snake.update]
    cases bs <;> simp
  · exact ⟨b :: bs, by simp [Snake.update], List.Subset.refl _, by simp⟩

/-- C1: `advance()` (here `Snake.update`) pushes the new head
`body[0] + direction` at the front; when the pending-growth flag is
set it is cleared and nothing is removed (length grows by one),
otherwise the last cell is removed (length unchanged); and one update
of the initial snake `[(6,9),(5,9),(4,9)]` with direction `(1,0)` and
no pending growth yields `[(7,9),(6,9),(5,9)]`. -/
theorem snake_update_spec (s : Snake) (hb : s.body ≠ []) :
    (s.update.body =
      (s.body.headD ⟨0, 0⟩).add s.direction ::
        (if s.addSegment then s.body else s.body.dropLast)) ∧
    (s.addSegment = true →
      s.update.addSegment = false ∧
      s.update.body.length = s.body.length + 1) ∧
    (s.addSegment = false →
      s.update.addSegment = false ∧
      s.update.body.length = s.body.length) ∧
    Snake.update
        { addSegment := false
          body := [⟨6, 9⟩, ⟨5, 9⟩, ⟨4, 9⟩]
          direction := ⟨1, 0⟩ } =
      { addSegment := false
        body := [⟨7, 9⟩, ⟨6, 9⟩, ⟨5, 9⟩]
        direction := ⟨1, 0⟩ } := by
  obtain ⟨t, hbody, -, ht⟩ := snake_update_body_decomp s hb
  refine ⟨hbody ▸ ht ▸ rfl, fun ha => ⟨?_, ?_⟩, fun ha => ⟨?_, ?_⟩, ?_⟩
  · simp [Snake.update, ha]
  · rw [hbody, ht, if_pos ha]; simp
  · simp [Snake.update, ha]
  · rw [hbody, ht, if_neg (by simp [ha])]
    obtain ⟨b, bs, h⟩ := List.exists_cons_of_ne_nil hb
    simp [h]
  · rfl

theorem snake_update_spec_witness :
    (Snake.start.body ≠ []) ∧
    ((Snake.start.update.body =
      (Snake.start.body.headD ⟨0, 0⟩).add Snake.start.direction ::
        (if Snake.start.addSegment then Snake.start.body
         else Snake.start.body.dropLast)) ∧
    (Snake.start.addSegment = true →
      Snake.start.update.addSegment = false ∧
      Snake.start.update.body.length = Snake.start.body.length + 1) ∧
    (Snake.start.addSegment = false →
      Snake.start.update.addSegment = false ∧
      Snake.start.update.body.length = Snake.start.body.length) ∧
    Snake.update
        { addSegment := false
          body := [⟨6, 9⟩, ⟨5, 9⟩, ⟨4, 9⟩]
          direction := ⟨1, 0⟩ } =
      { addSegment := false
        body := [⟨7, 9⟩, ⟨6, 9⟩, ⟨5, 9⟩]
        direction := ⟨1, 0⟩ }) :=
  ⟨by decide, snake_update_spec Snake.start (by decide)⟩

/-! ### C7: Snake.reset -/

/-- C7 counterexample: `Snake::Reset` does **not** clear the
pending-growth flag.  From a snake with `addSegment = true`, after
`Reset` the flag is still set, and the first `Update` after the reset
lengthens the body from 3 to 4 cells — refuting the claim that a reset
clears pending growth so that the first advance never lengthens the
snake. -/
theorem snake_reset_counterexample :
    (Snake.reset
        { addSegment := true, body := [⟨0, 0⟩], direction := ⟨0, 1⟩ }).addSegment
      = true ∧
    (Snake.reset
        { addSegment := true, body := [⟨0, 0⟩], direction := ⟨0, 1⟩ }).update.body.length
      = 4 ∧
    (Snake.reset
        { addSegment := true, body := [⟨0, 0⟩], direction := ⟨0, 1⟩ }).body.length
      = 3 := by
  decide

/-- C7 (amended): `reset()` restores the initial 3-cell body
`[(6,9),(5,9),(4,9)]` and the initial direction `(1,0)`, but leaves
the pending-growth flag unchanged — it does not clear it, so the first
`advance()` after a reset lengthens the snake exactly when the flag
was already set. -/
theorem snake_reset_spec (s : Snake) :
    s.reset.body = [⟨6, 9⟩, ⟨5, 9⟩, ⟨4, 9⟩] ∧
    s.reset.direction = ⟨1, 0⟩ ∧
    s.reset.addSegment = s.addSegment ∧
    (s.reset.addSegment = false → s.reset.update.body.length = 3) ∧
    (s.reset.addSegment = true → s.reset.update.body.length = 4) := by
  refine ⟨rfl, rfl, rfl, fun h => ?_, fun h => ?_⟩ <;>
    (simp only [Snake.reset] at h; simp [Snake.reset, Snake.update, h])

/-! ### C4: GenerateRandomPos avoids the occupied set -/

/-- C4: whenever the resample loop of `GenerateRandomPos` terminates
(the modelled candidate stream yields a result), the returned food
position is not a member of the supplied occupied set (snake body). -/
theorem generateRandomPos_spec (cands snakeBody : List Vec2) (p : Vec2)
    (rest : List Vec2)
    (h : generateRandomPos cands snakeBody = some (p, rest)) :
    p ∉ snakeBody ∧ elementInDeque p snakeBody = false :=
  ⟨generateRandomPos_not_mem h,
    (elementInDeque_eq_false_iff p snakeBody).mpr (generateRandomPos_not_mem h)⟩

theorem generateRandomPos_spec_witness :
    generateRandomPos [⟨6, 9⟩, ⟨0, 0⟩] [⟨6, 9⟩, ⟨5, 9⟩, ⟨4, 9⟩] =
      some (⟨0, 0⟩, []) ∧
    ((⟨0, 0⟩ : Vec2) ∉ ([⟨6, 9⟩, ⟨5, 9⟩, ⟨4, 9⟩] : List Vec2) ∧
      elementInDeque ⟨0, 0⟩ [⟨6, 9⟩, ⟨5, 9⟩, ⟨4, 9⟩] = false) :=
  ⟨by decide,
    generateRandomPos_spec [⟨6, 9⟩, ⟨0, 0⟩] [⟨6, 9⟩, ⟨5, 9⟩, ⟨4, 9⟩] ⟨0, 0⟩ []
      (by decide)⟩

/-! ### C6: direction changes reject exact reversal -/

/-- C6: for a current direction among the four unit directions, a
direction-key press whose requested direction is the exact opposite of
the current one is a no-op, and any non-opposite request replaces the
direction used by the next advance.  In particular (via the witness)
with current direction `(1,0)`, the LEFT key (request `(-1,0)`) leaves
the direction `(1,0)`. -/
theorem setDirection_spec (k : Key) (d : Vec2) (hd : isUnitDir d) :
    (k.dir = d.neg → applyKey k d = d) ∧
    (k.dir ≠ d.neg → applyKey k d = k.dir) := by
  cases k <;> rcases hd with rfl | rfl | rfl | rfl <;> exact ⟨by decide, by decide⟩

theorem setDirection_spec_witness :
    isUnitDir ⟨1, 0⟩ ∧
    ((Key.left.dir = (Vec2.neg ⟨1, 0⟩) → applyKey Key.left ⟨1, 0⟩ = ⟨1, 0⟩) ∧
      (Key.left.dir ≠ (Vec2.neg ⟨1, 0⟩) → applyKey Key.left ⟨1, 0⟩ = Key.left.dir)) :=
  ⟨by decide, setDirection_spec Key.left ⟨1, 0⟩ (by decide)⟩

/-! ### Characterizations of the round-end path -/

theorem spawnFruits_char :
    ∀ (n : Nat) (snakeBody cands fs c' : List Vec2),
      spawnFruits n snakeBody cands = some (fs, c') →
      fs.length = n ∧ ∀ f ∈ fs, f ∉ snakeBody := by
  intro n
  induction n with
  | zero =>
      intro body cands fs c' h
      simp [spawnFruits] at h
      obtain ⟨rfl, rfl⟩ := h
      simp
  | succ m ih =>
      intro body cands fs c' h
      rw [spawnFruits] at h
      split at h
      · exact absurd h (by simp)
      next p cands1 hg =>
        split at h
        · exact absurd h (by simp)
        next fs1 c1 hs =>
          simp only [Option.some.injEq, Prod.mk.injEq] at h
          obtain ⟨rfl, rfl⟩ := h
          obtain ⟨hl, hmem⟩ := ih body cands1 fs1 c1 hs
          refine ⟨by simp [hl], fun f hf => ?_⟩
          rcases List.mem_cons.mp hf with rfl | hf
          · exact generateRandomPos_not_mem hg
          · exact hmem f hf

theorem gameOverStep_char {g : Game} {cands : List Vec2} {g' : Game}
    {c' : List Vec2} (h : g.gameOverStep cands = some (g', c')) :
    g'.game_over = true ∧ g'.running = false ∧
    g'.snake.body = [⟨6, 9⟩, ⟨5, 9⟩, ⟨4, 9⟩] ∧
    g'.snake.direction = ⟨1, 0⟩ ∧
    g'.snake.addSegment = g.snake.addSegment ∧
    g'.speed = 1 / 5 ∧
    g'.high_score = (if g.score ≥ g.high_score then g.score else g.high_score) ∧
    g'.temp_score = g.score ∧
    g'.score = 0 ∧
    g'.fruits.length = 3 ∧
    (∀ f ∈ g'.fruits, f ∉ g'.snake.body) := by
  simp only [Game.gameOverStep] at h
  split at h
  · exact absurd h (by simp)
  next fs cands1 hs =>
    simp only [Option.some.injEq, Prod.mk.injEq] at h
    obtain ⟨rfl, rfl⟩ := h
    obtain ⟨hl, hmem⟩ := spawnFruits_char 3 _ _ _ _ hs
    exact ⟨rfl, rfl, rfl, rfl, rfl, rfl, rfl, rfl, rfl, hl, hmem⟩

/-! ### C3: endRound resets the round state -/

/-- C3: every `GameOver()` call (the round end) sets the game-over
state, stops the simulation, resets the snake to its initial layout,
respawns exactly 3 food items clear of the reset snake, resets the
tick interval to 0.2, updates the high score to
`max(high_score, score)`, stores the final score for display, and
resets the score to 0 — for any prior score ≥ 0. -/
theorem gameOver_spec (g : Game) (cands : List Vec2) (g' : Game)
    (c' : List Vec2) (hs : 0 ≤ g.score)
    (h : g.gameOverStep cands = some (g', c')) :
    g'.game_over = true ∧ g'.running = false ∧
    g'.snake.body = Snake.start.body ∧
    g'.snake.direction = Snake.start.direction ∧
    g'.fruits.length = 3 ∧
    (∀ f ∈ g'.fruits, f ∉ g'.snake.body) ∧
    g'.speed = 1 / 5 ∧
    g'.high_score = max g.high_score g.score ∧
    g'.temp_score = g.score ∧
    g'.score = 0 := by
  obtain ⟨h1, h2, h3, h4, h5, h6, h7, h8, h9, h10, h11⟩ := gameOverStep_char h
  refine ⟨h1, h2, h3, h4, h10, h11, h6, ?_, h8, h9⟩
  rw [h7]
  split_ifs with hc <;> omega

def overDemoIn : Game :=
  { score := 5
    speed := 1 / 10
    running := true
    game_over := false
    snake := { addSegment := false, body := [⟨0, 0⟩], direction := ⟨1, 0⟩ }
    fruits := [⟨2, 2⟩]
    high_score := 3
    temp_score := 0 }

def overDemoOut : Game :=
  { score := 0
    speed := 1 / 5
    running := false
    game_over := true
    snake :=
      { addSegment := false
        body := [⟨6, 9⟩, ⟨5, 9⟩, ⟨4, 9⟩]
        direction := ⟨1, 0⟩ }
    fruits := [⟨0, 0⟩, ⟨0, 1⟩, ⟨0, 2⟩]
    high_score := 5
    temp_score := 5 }

theorem gameOver_spec_witness :
    (0 : Int) ≤ overDemoIn.score ∧
    Game.gameOverStep overDemoIn [⟨0, 0⟩, ⟨0, 1⟩, ⟨0, 2⟩] =
      some (overDemoOut, []) ∧
    (overDemoOut.game_over = true ∧ overDemoOut.running = false ∧
      overDemoOut.snake.body = Snake.start.body ∧
      overDemoOut.snake.direction = Snake.start.direction ∧
      overDemoOut.fruits.length = 3 ∧
      (∀ f ∈ overDemoOut.fruits, f ∉ overDemoOut.snake.body) ∧
      overDemoOut.speed = 1 / 5 ∧
      overDemoOut.high_score = max overDemoIn.high_score overDemoIn.score ∧
      overDemoOut.temp_score = overDemoIn.score ∧
      overDemoOut.score = 0) :=
  ⟨by decide, by rfl,
    gameOver_spec overDemoIn [⟨0, 0⟩, ⟨0, 1⟩, ⟨0, 2⟩] overDemoOut []
      (by decide) (by rfl)⟩

/-! ### C2: the boundary check -/

theorem checkEdgesY_no_fire {g : Game} {cands : List Vec2} {n : Nat}
    (hy : ¬((g.snake.body.headD ⟨0, 0⟩).y = cellcount ∨
            (g.snake.body.headD ⟨0, 0⟩).y = -1)) :
    g.checkEdgesY cands n = some (g, cands, n) := by
  simp only [Game.checkEdgesY]
  rw [if_neg hy]

theorem checkEdgesY_start_body {g : Game} {cands : List Vec2} {n : Nat}
    (hb : g.snake.body = [⟨6, 9⟩, ⟨5, 9⟩, ⟨4, 9⟩]) :
    g.checkEdgesY cands n = some (g, cands, n) := by
  apply checkEdgesY_no_fire
  rw [hb]
  decide

/-- C2: on the 25×25 grid the edge check triggers `GameOver` exactly
when a head coordinate equals -1 or equals the grid size
(`cellcount = 25`): when neither coordinate does, the check leaves the
game untouched and emits no collision signal; when one does, any
successful check ends in the game-over state with exactly one
collision signal.  Heads `(25,9)` and `(-1,9)` therefore trigger it
and `(24,9)` does not (see the witness). -/
theorem checkEdges_spec (g : Game) (cands : List Vec2) :
    (¬((g.snake.body.headD ⟨0, 0⟩).x = cellcount ∨
        (g.snake.body.headD ⟨0, 0⟩).x = -1 ∨
        (g.snake.body.headD ⟨0, 0⟩).y = cellcount ∨
        (g.snake.body.headD ⟨0, 0⟩).y = -1) →
      g.checkCollisionWithEdges cands = some (g, cands, 0)) ∧
    (((g.snake.body.headD ⟨0, 0⟩).x = cellcount ∨
        (g.snake.body.headD ⟨0, 0⟩).x = -1 ∨
        (g.snake.body.headD ⟨0, 0⟩).y = cellcount ∨
        (g.snake.body.headD ⟨0, 0⟩).y = -1) →
      ∀ (g' : Game) (c' : List Vec2) (n : Nat),
        g.checkCollisionWithEdges cands = some (g', c', n) →
        g'.game_over = true ∧ g'.running = false ∧ n = 1) ∧
    cellcount = 25 := by
  refine ⟨fun hno => ?_, fun hcond g' c' n heq => ?_, rfl⟩
  · push_neg at hno
    obtain ⟨h1, h2, h3, h4⟩ := hno
    simp only [Game.checkCollisionWithEdges]
    rw [if_neg (by tauto)]
    exact checkEdgesY_no_fire (by tauto)
  · by_cases hx : (g.snake.body.headD ⟨0, 0⟩).x = cellcount ∨
        (g.snake.body.headD ⟨0, 0⟩).x = -1
    · simp only [Game.checkCollisionWithEdges] at heq
      rw [if_pos hx] at heq
      split at heq
      · exact absurd heq (by simp)
      next g1 c1 hgo =>
        have hchar := gameOverStep_char hgo
        rw [checkEdgesY_start_body hchar.2.2.1] at heq
        simp only [Option.some.injEq, Prod.mk.injEq] at heq
        obtain ⟨rfl, rfl, rfl⟩ := heq
        exact ⟨hchar.1, hchar.2.1, rfl⟩
    · have hy : (g.snake.body.headD ⟨0, 0⟩).y = cellcount ∨
          (g.snake.body.headD ⟨0, 0⟩).y = -1 := by tauto
      simp only [Game.checkCollisionWithEdges] at heq
      rw [if_neg hx] at heq
      simp only [Game.checkEdgesY] at heq
      rw [if_pos hy] at heq
      split at heq
      · exact absurd heq (by simp)
      next g1 c1 hgo =>
        have hchar := gameOverStep_char hgo
        simp only [Option.some.injEq, Prod.mk.injEq] at heq
        obtain ⟨rfl, rfl, rfl⟩ := heq
        exact ⟨hchar.1, hchar.2.1, rfl⟩

def edgeDemoIn : Game :=
  { score := 0
    speed := 1 / 5
    running := true
    game_over := false
    snake :=
      { addSegment := false
        body := [⟨25, 9⟩, ⟨24, 9⟩]
        direction := ⟨1, 0⟩ }
    fruits := []
    high_score := 0
    temp_score := 0 }

def edgeDemoOut : Game :=
  { score := 0
    speed := 1 / 5
    running := false
    game_over := true
    snake :=
      { addSegment := false
        body := [⟨6, 9⟩, ⟨5, 9⟩, ⟨4, 9⟩]
        direction := ⟨1, 0⟩ }
    fruits := [⟨0, 0⟩, ⟨0, 1⟩, ⟨0, 2⟩]
    high_score := 0
    temp_score := 0 }

def edgeDemoIn24 : Game :=
  { score := 0
    speed := 1 / 5
    running := true
    game_over := false
    snake :=
      { addSegment := false
        body := [⟨24, 9⟩, ⟨23, 9⟩]
        direction := ⟨1, 0⟩ }
    fruits := []
    high_score := 0
    temp_score := 0 }

theorem checkEdges_spec_witness :
    (((edgeDemoIn.snake.body.headD ⟨0, 0⟩).x = cellcount ∨
        (edgeDemoIn.snake.body.headD ⟨0, 0⟩).x = -1 ∨
        (edgeDemoIn.snake.body.headD ⟨0, 0⟩).y = cellcount ∨
        (edgeDemoIn.snake.body.headD ⟨0, 0⟩).y = -1) ∧
      edgeDemoIn.checkCollisionWithEdges [⟨0, 0⟩, ⟨0, 1⟩, ⟨0, 2⟩] =
        some (edgeDemoOut, [], 1) ∧
      (edgeDemoOut.game_over = true ∧ edgeDemoOut.running = false ∧ 1 = 1)) ∧
    (¬((edgeDemoIn24.snake.body.headD ⟨0, 0⟩).x = cellcount ∨
        (edgeDemoIn24.snake.body.headD ⟨0, 0⟩).x = -1 ∨
        (edgeDemoIn24.snake.body.headD ⟨0, 0⟩).y = cellcount ∨
        (edgeDemoIn24.snake.body.headD ⟨0, 0⟩).y = -1) ∧
      edgeDemoIn24.checkCollisionWithEdges [] = some (edgeDemoIn24, [], 0)) :=
  ⟨⟨by decide, by rfl,
      (checkEdges_spec edgeDemoIn [⟨0, 0⟩, ⟨0, 1⟩, ⟨0, 2⟩]).2.1 (by decide)
        edgeDemoOut [] 1 (by rfl)⟩,
    ⟨by decide, (checkEdges_spec edgeDemoIn24 []).1 (by decide)⟩⟩

/-! ### C8: speed ramp on eating -/

theorem speed_iterate_formula (sp : ℚ) :
    ∀ k : ℕ, (∀ i < k, 7 / 100 ≤ speedAfterEat^[i] sp) →
      speedAfterEat^[k] sp = sp * (49 / 50) ^ k := by
  intro k
  induction k with
  | zero => intro _; simp
  | succ m ih =>
      intro hup
      have hm : (7 : ℚ) / 100 ≤ speedAfterEat^[m] sp :=
        hup m (Nat.lt_succ_self m)
      rw [Function.iterate_succ_apply',
        ih (fun i hi => hup i (Nat.lt_succ_of_lt hi))]
      rw [ih (fun i hi => hup i (Nat.lt_succ_of_lt hi))] at hm
      rw [speedAfterEat, if_pos hm, pow_succ]
      ring

/-- C8: each food eat increments the score by 1 and applies
`speedAfterEat`, which multiplies the interval by 0.98 whenever it is
above (indeed, at or above) the 0.07 floor and leaves it unchanged
once below the floor; consequently after `N` eats with the interval
still at or above the floor the interval equals `0.2 * 0.98^N`. -/
theorem speed_spec (sp : ℚ) :
    (7 / 100 < sp → speedAfterEat sp = sp * (49 / 50)) ∧
    (sp < 7 / 100 → speedAfterEat sp = sp) ∧
    (∀ N : ℕ, (∀ i < N, 7 / 100 ≤ speedAfterEat^[i] ((1 : ℚ) / 5)) →
      speedAfterEat^[N] ((1 : ℚ) / 5) = (1 / 5) * (49 / 50) ^ N) ∧
    (∀ (head : Vec2) (body cands : List Vec2) (a : Bool) (sc : Int)
        (p : Vec2) (c' : List Vec2),
      generateRandomPos cands body = some (p, c') →
      checkCollisionWithFood head body cands [head] a sc sp =
        some (c', [p], true, sc + 1, speedAfterEat sp)) := by
  refine ⟨fun h => ?_, fun h => ?_, speed_iterate_formula (1 / 5),
    fun head body cands a sc p c' hg => ?_⟩
  · rw [speedAfterEat, if_pos (le_of_lt h)]
  · rw [speedAfterEat, if_neg (not_le.mpr h)]
  · simp [checkCollisionWithFood, hg]

theorem speed_spec_witness :
    ((7 : ℚ) / 100 < 1 / 5 ∧
      speedAfterEat (1 / 5) = (1 / 5) * (49 / 50)) ∧
    ((1 : ℚ) / 20 < 7 / 100 ∧ speedAfterEat (1 / 20) = 1 / 20) ∧
    ((∀ i < 2, (7 : ℚ) / 100 ≤ speedAfterEat^[i] ((1 : ℚ) / 5)) ∧
      speedAfterEat^[2] ((1 : ℚ) / 5) = (1 / 5) * (49 / 50) ^ 2) ∧
    (generateRandomPos [⟨0, 0⟩] [⟨1, 1⟩] = some (⟨0, 0⟩, []) ∧
      checkCollisionWithFood ⟨3, 3⟩ [⟨1, 1⟩] [⟨0, 0⟩] [⟨3, 3⟩] false 0 (1 / 5) =
        some ([], [⟨0, 0⟩], true, 0 + 1, speedAfterEat (1 / 5))) :=
  ⟨⟨by norm_num, (speed_spec (1 / 5)).1 (by norm_num)⟩,
    ⟨by norm_num, (speed_spec (1 / 20)).2.1 (by norm_num)⟩,
    ⟨by
        intro i hi
        interval_cases i <;>
          norm_num [speedAfterEat, Function.iterate_one, Function.iterate_zero],
      (speed_spec (1 / 5)).2.2.1 2
        (by
          intro i hi
          interval_cases i <;>
            norm_num [speedAfterEat, Function.iterate_one, Function.iterate_zero])⟩,
    ⟨by decide, (speed_spec (1 / 5)).2.2.2 ⟨3, 3⟩ [⟨1, 1⟩] [⟨0, 0⟩] false 0
        ⟨0, 0⟩ [] (by decide)⟩⟩

/-! ### C10: several food items on one cell -/

theorem checkFood_count (head : Vec2) (body : List Vec2) :
    ∀ (fruits cands : List Vec2) (a : Bool) (sc : Int) (sp : ℚ)
      (cs fs : List Vec2) (a' : Bool) (sc' : Int) (sp' : ℚ),
      checkCollisionWithFood head body cands fruits a sc sp =
        some (cs, fs, a', sc', sp') →
      sc' = sc + fruits.count head ∧
      sp' = speedAfterEat^[fruits.count head] sp ∧
      (head ∈ fruits → a' = true) ∧
      (head ∉ fruits → a' = a) ∧
      fs.length = fruits.length := by
  intro fruits
  induction fruits with
  | nil =>
      intro cands a sc sp cs fs a' sc' sp' h
      simp [checkCollisionWithFood] at h
      obtain ⟨rfl, rfl, rfl, rfl, rfl⟩ := h
      simp
  | cons f rest ih =>
      intro cands a sc sp cs fs a' sc' sp' h
      rw [checkCollisionWithFood] at h
      by_cases hf : f = head
      · rw [if_pos hf] at h
        split at h
        · exact absurd h (by simp)
        next p cands1 hg =>
          split at h
          · exact absurd h (by simp)
          next cs1 fs1 a1 sc1 sp1 hrec =>
            simp only [Option.some.injEq, Prod.mk.injEq] at h
            obtain ⟨rfl, rfl, rfl, rfl, rfl⟩ := h
            obtain ⟨e1, e2, e3, e3', e4⟩ := ih cands1 true (sc + 1)
              (speedAfterEat sp) _ _ _ _ _ hrec
            subst hf
            refine ⟨?_, ?_, fun _ => ?_, fun hnm => ?_, ?_⟩
            · rw [e1, List.count_cons_self]
              push_cast
              ring
            · rw [e2, List.count_cons_self, Function.iterate_succ_apply]
            · by_cases hm : f ∈ rest
              · exact e3 hm
              · exact e3' hm
            · exact absurd (List.mem_cons_self f rest) hnm
            · simp [e4]
      · rw [if_neg hf] at h
        split at h
        · exact absurd h (by simp)
        next cs1 fs1 a1 sc1 sp1 hrec =>
          simp only [Option.some.injEq, Prod.mk.injEq] at h
          obtain ⟨rfl, rfl, rfl, rfl, rfl⟩ := h
          obtain ⟨e1, e2, e3, e3', e4⟩ := ih cands a sc sp _ _ _ _ _ hrec
          have hcount : (f :: rest).count head = rest.count head :=
            List.count_cons_of_ne (fun he => hf he.symm) rest
          refine ⟨?_, ?_, fun hm => ?_, fun hnm => ?_, ?_⟩
          · rw [e1, hcount]
          · rw [e2, hcount]
          · rcases List.mem_cons.mp hm with he | hm'
            · exact absurd he.symm hf
            · exact e3 hm'
          · exact e3' (fun hm' => hnm (List.mem_cons_of_mem f hm'))
          · simp [e4]

/-- C10: when `k ≥ 2` food items occupy the head's cell, one pass of
the food-collision check increments the score by `k` and applies the
speed adjustment `k` times (so, while the interval stays at or above
the floor, it is multiplied by 0.98 `k` times), yet pending growth is
a single boolean: the flag merely becomes `true`, and the next
`advance()` of a snake with the flag set grows it by exactly one
segment, clearing the flag. -/
theorem multiFood_spec (head : Vec2) (body fruits cands : List Vec2)
    (a : Bool) (sc : Int) (sp : ℚ) (cs fs : List Vec2) (a' : Bool)
    (sc' : Int) (sp' : ℚ) (k : Nat)
    (hk : fruits.count head = k) (hk2 : 2 ≤ k)
    (h : checkCollisionWithFood head body cands fruits a sc sp =
      some (cs, fs, a', sc', sp')) :
    sc' = sc + k ∧
    sp' = speedAfterEat^[k] sp ∧
    ((∀ i < k, 7 / 100 ≤ speedAfterEat^[i] sp) → sp' = sp * (49 / 50) ^ k) ∧
    a' = true ∧
    (∀ s : Snake, s.addSegment = true → s.body ≠ [] →
      s.update.addSegment = false ∧
      s.update.body.length = s.body.length + 1) := by
  obtain ⟨e1, e2, e3, -, -⟩ := checkFood_count head body fruits cands a sc sp
    cs fs a' sc' sp' h
  subst hk
  have hmem : head ∈ fruits := by
    rw [← List.count_pos_iff]
    omega
  refine ⟨e1, e2, fun hup => ?_, e3 hmem, fun s ha hb => ?_⟩
  · rw [e2, speed_iterate_formula sp _ hup]
  · obtain ⟨sa, sbody, sdir⟩ := s
    simp only at ha hb
    subst ha
    obtain ⟨b, bs, rfl⟩ := List.exists_cons_of_ne_nil hb
    simp [Snake.update]

theorem multiFood_spec_witness :
    List.count (⟨3, 3⟩ : Vec2) [⟨3, 3⟩, ⟨3, 3⟩] = 2 ∧ 2 ≤ 2 ∧
    checkCollisionWithFood ⟨3, 3⟩ [⟨3, 3⟩, ⟨2, 3⟩] [⟨0, 0⟩, ⟨1, 0⟩]
        [⟨3, 3⟩, ⟨3, 3⟩] false 0 (1 / 5) =
      some ([], [⟨0, 0⟩, ⟨1, 0⟩], true, 2,
        speedAfterEat (speedAfterEat ((1 : ℚ) / 5))) ∧
    (2 = (0 : Int) + (2 : Nat) ∧
      speedAfterEat (speedAfterEat ((1 : ℚ) / 5)) = speedAfterEat^[2] ((1 : ℚ) / 5) ∧
      ((∀ i < 2, 7 / 100 ≤ speedAfterEat^[i] ((1 : ℚ) / 5)) →
        speedAfterEat (speedAfterEat ((1 : ℚ) / 5)) = (1 / 5) * (49 / 50) ^ 2) ∧
      true = true ∧
      (∀ s : Snake, s.addSegment = true → s.body ≠ [] →
        s.update.addSegment = false ∧
        s.update.body.length = s.body.length + 1)) :=
  ⟨by decide, by decide, by rfl,
    multiFood_spec ⟨3, 3⟩ [⟨3, 3⟩, ⟨2, 3⟩] [⟨3, 3⟩, ⟨3, 3⟩] [⟨0, 0⟩, ⟨1, 0⟩]
      false 0 (1 / 5) [] [⟨0, 0⟩, ⟨1, 0⟩] true 2
      (speedAfterEat (speedAfterEat ((1 : ℚ) / 5))) 2 (by decide) (by decide)
      (by rfl)⟩

/-! ### C5: the food/snake disjointness invariant -/

theorem checkFood_safe (head : Vec2) (body : List Vec2) :
    ∀ (fruits cands : List Vec2) (a : Bool) (sc : Int) (sp : ℚ)
      (cs fs : List Vec2) (a' : Bool) (sc' : Int) (sp' : ℚ),
      (∀ f ∈ fruits, f ∈ body → f = head) →
      checkCollisionWithFood head body cands fruits a sc sp =
        some (cs, fs, a', sc', sp') →
      ∀ f ∈ fs, f ∉ body := by
  intro fruits
  induction fruits with
  | nil =>
      intro cands a sc sp cs fs a' sc' sp' _ h
      simp [checkCollisionWithFood] at h
      obtain ⟨rfl, rfl, rfl, rfl, rfl⟩ := h
      simp
  | cons f rest ih =>
      intro cands a sc sp cs fs a' sc' sp' hpre h
      rw [checkCollisionWithFood] at h
      by_cases hf : f = head
      · rw [if_pos hf] at h
        split at h
        · exact absurd h (by simp)
        next p cands1 hg =>
          split at h
          · exact absurd h (by simp)
          next cs1 fs1 a1 sc1 sp1 hrec =>
            simp only [Option.some.injEq, Prod.mk.injEq] at h
            obtain ⟨rfl, rfl, rfl, rfl, rfl⟩ := h
            intro x hx
            rcases List.mem_cons.mp hx with rfl | hx'
            · exact generateRandomPos_not_mem hg
            · exact ih cands1 true (sc + 1) (speedAfterEat sp) _ _ _ _ _
                (fun y hy hyb => hpre y (List.mem_cons_of_mem f hy) hyb)
                hrec x hx'
      · rw [if_neg hf] at h
        split at h
        · exact absurd h (by simp)
        next cs1 fs1 a1 sc1 sp1 hrec =>
          simp only [Option.some.injEq, Prod.mk.injEq] at h
          obtain ⟨rfl, rfl, rfl, rfl, rfl⟩ := h
          intro x hx
          rcases List.mem_cons.mp hx with rfl | hx'
          · exact fun hxb => hf (hpre x (List.mem_cons_self x rest) hxb)
          · exact ih cands a sc sp _ _ _ _ _
              (fun y hy hyb => hpre y (List.mem_cons_of_mem f hy) hyb)
              hrec x hx'

theorem gameOverStep_inv {g : Game} {cands : List Vec2} {g' : Game}
    {c' : List Vec2} (h : g.gameOverStep cands = some (g', c')) :
    g'.snake.body ≠ [] ∧ FoodSafe g' := by
  obtain ⟨-, -, h3, -, -, -, -, -, -, -, h11⟩ := gameOverStep_char h
  exact ⟨by rw [h3]; simp, h11⟩

theorem checkEdgesY_inv {g : Game} {cands : List Vec2} {n : Nat} {g' : Game}
    {c' : List Vec2} {n' : Nat} (hb : g.snake.body ≠ []) (hf : FoodSafe g)
    (h : g.checkEdgesY cands n = some (g', c', n')) :
    g'.snake.body ≠ [] ∧ FoodSafe g' := by
  simp only [Game.checkEdgesY] at h
  split at h
  · split at h
    · exact absurd h (by simp)
    next g1 c1 hgo =>
      simp only [Option.some.injEq, Prod.mk.injEq] at h
      obtain ⟨rfl, rfl, rfl⟩ := h
      exact gameOverStep_inv hgo
  · simp only [Option.some.injEq, Prod.mk.injEq] at h
    obtain ⟨rfl, rfl, rfl⟩ := h
    exact ⟨hb, hf⟩

theorem checkEdges_inv {g : Game} {cands : List Vec2} {g' : Game}
    {c' : List Vec2} {n : Nat} (hb : g.snake.body ≠ []) (hf : FoodSafe g)
    (h : g.checkCollisionWithEdges cands = some (g', c', n)) :
    g'.snake.body ≠ [] ∧ FoodSafe g' := by
  simp only [Game.checkCollisionWithEdges] at h
  split at h
  · split at h
    · exact absurd h (by simp)
    next g1 c1 hgo =>
      obtain ⟨hb1, hf1⟩ := gameOverStep_inv hgo
      exact checkEdgesY_inv hb1 hf1 h
  · exact checkEdgesY_inv hb hf h

theorem checkTail_inv {g : Game} {cands : List Vec2} {n : Nat} {g' : Game}
    {c' : List Vec2} {n' : Nat} (hb : g.snake.body ≠ []) (hf : FoodSafe g)
    (h : g.checkCollisionsWithTail cands n = some (g', c', n')) :
    g'.snake.body ≠ [] ∧ FoodSafe g' := by
  simp only [Game.checkCollisionsWithTail] at h
  split at h
  · split at h
    · exact absurd h (by simp)
    next g1 c1 hgo =>
      simp only [Option.some.injEq, Prod.mk.injEq] at h
      obtain ⟨rfl, rfl, rfl⟩ := h
      exact gameOverStep_inv hgo
  · simp only [Option.some.injEq, Prod.mk.injEq] at h
    obtain ⟨rfl, rfl, rfl⟩ := h
    exact ⟨hb, hf⟩

theorem update_inv {g : Game} {cands : List Vec2} {g' : Game}
    {c' : List Vec2} {n : Nat} (hb : g.snake.body ≠ []) (hf : FoodSafe g)
    (h : Game.update g cands = some (g', c', n)) :
    g'.snake.body ≠ [] ∧ FoodSafe g' := by
  simp only [Game.update] at h
  split at h
  · split at h
    · exact absurd h (by simp)
    next cands1 fruits' a' sc' sp' hfood =>
      split at h
      · exact absurd h (by simp)
      next g3 c3 n3 hedges =>
        obtain ⟨t, hbody, hsub, -⟩ := snake_update_body_decomp g.snake hb
        have hpre : ∀ f ∈ g.fruits, f ∈ g.snake.update.body →
            f = g.snake.update.body.headD ⟨0, 0⟩ := by
          intro f hfr hfb
          rw [hbody] at hfb
          rcases List.mem_cons.mp hfb with rfl | hft
          · rw [hbody]; rfl
          · exact absurd (hsub hft) (hf f hfr)
        obtain ⟨hb3, hf3⟩ := checkEdges_inv
          (by show g.snake.update.body ≠ []; rw [hbody]; simp)
          (by
            intro f hfr
            exact checkFood_safe _ _ g.fruits cands _ _ _ _ _ _ _ _ hpre
              hfood f hfr)
          hedges
        exact checkTail_inv hb3 hf3 h
  · simp only [Option.some.injEq, Prod.mk.injEq] at h
    obtain ⟨rfl, rfl, rfl⟩ := h
    exact ⟨hb, hf⟩

theorem construct_inv {cands : List Vec2} {g : Game} {rest : List Vec2}
    (h : Game.construct cands = some (g, rest)) :
    g.snake.body ≠ [] ∧ FoodSafe g := by
  simp only [Game.construct] at h
  split at h
  · exact absurd h (by simp)
  next fs cands1 hs =>
    simp only [Option.some.injEq, Prod.mk.injEq] at h
    obtain ⟨rfl, rfl⟩ := h
    exact ⟨by simp [Snake.start], (spawnFruits_char 3 _ _ _ _ hs).2⟩

theorem reachable_inv : ∀ {g : Game}, Game.Reachable g →
    g.snake.body ≠ [] ∧ FoodSafe g := by
  intro g h
  induction h with
  | construct cands g0 rest h0 => exact construct_inv h0
  | start _ ih => exact ih
  | key k _ ih => exact ih
  | tick _ hu ih => exact update_inv ih.1 ih.2 hu

/-- C5: in every game state reachable from the constructed initial
state through start/restart inputs, direction keys, tick updates and
(inside ticks) round ends, every food item's position is distinct from
every cell of the snake body: the disjointness is established at spawn
and preserved by every `Update()` and every `GameOver()`. -/
theorem reachable_foodSafe (g : Game) (h : Game.Reachable g) : FoodSafe g :=
  (reachable_inv h).2

def reachDemo : Game :=
  { score := 0
    speed := 1 / 5
    running := false
    game_over := false
    snake := Snake.start
    fruits := [⟨0, 0⟩, ⟨0, 1⟩, ⟨0, 2⟩]
    high_score := 0
    temp_score := 0 }

theorem reachable_foodSafe_witness : FoodSafe reachDemo :=
  reachable_foodSafe reachDemo
    (Game.Reachable.construct [⟨0, 0⟩, ⟨0, 1⟩, ⟨0, 2⟩] reachDemo [] (by rfl))

/-! ### C9: collision signals per tick -/

theorem checkTail_no_fire_start {g : Game} {cands : List Vec2} {n : Nat}
    (hb : g.snake.body = [⟨6, 9⟩, ⟨5, 9⟩, ⟨4, 9⟩]) :
    g.checkCollisionsWithTail cands n = some (g, cands, n) := by
  simp only [Game.checkCollisionsWithTail, hb]
  rw [if_neg (by decide)]

theorem checkEdgesY_signal {g : Game} {cands : List Vec2} {n0 : Nat}
    {g' : Game} {c' : List Vec2} {n' : Nat}
    (h : g.checkEdgesY cands n0 = some (g', c', n')) :
    (g' = g ∧ c' = cands ∧ n' = n0) ∨
    (n' = n0 + 1 ∧ g'.snake.body = [⟨6, 9⟩, ⟨5, 9⟩, ⟨4, 9⟩]) := by
  simp only [Game.checkEdgesY] at h
  split at h
  · split at h
    · exact absurd h (by simp)
    next g1 c1 hgo =>
      simp only [Option.some.injEq, Prod.mk.injEq] at h
      obtain ⟨rfl, rfl, rfl⟩ := h
      exact Or.inr ⟨rfl, (gameOverStep_char hgo).2.2.1⟩
  · simp only [Option.some.injEq, Prod.mk.injEq] at h
    obtain ⟨rfl, rfl, rfl⟩ := h
    exact Or.inl ⟨rfl, rfl, rfl⟩

theorem checkEdges_signal {g : Game} {cands : List Vec2} {g' : Game}
    {c' : List Vec2} {n : Nat}
    (h : g.checkCollisionWithEdges cands = some (g', c', n)) :
    n ≤ 1 ∧ (1 ≤ n → g'.snake.body = [⟨6, 9⟩, ⟨5, 9⟩, ⟨4, 9⟩]) := by
  simp only [Game.checkCollisionWithEdges] at h
  split at h
  · split at h
    · exact absurd h (by simp)
    next g1 c1 hgo =>
      have hb1 := (gameOverStep_char hgo).2.2.1
      rw [checkEdgesY_start_body hb1] at h
      simp only [Option.some.injEq, Prod.mk.injEq] at h
      obtain ⟨rfl, rfl, rfl⟩ := h
      exact ⟨le_refl 1, fun _ => hb1⟩
  · rcases checkEdgesY_signal h with ⟨rfl, rfl, rfl⟩ | ⟨rfl, hb⟩
    · exact ⟨by omega, by omega⟩
    · exact ⟨le_refl 1, fun _ => hb⟩

theorem checkTail_signal {g : Game} {cands : List Vec2} {n0 : Nat}
    {g' : Game} {c' : List Vec2} {n' : Nat}
    (h : g.checkCollisionsWithTail cands n0 = some (g', c', n')) :
    n' ≤ n0 + 1 := by
  simp only [Game.checkCollisionsWithTail] at h
  split at h
  · split at h
    · exact absurd h (by simp)
    next g1 c1 hgo =>
      simp only [Option.some.injEq, Prod.mk.injEq] at h
      omega
  · simp only [Option.some.injEq, Prod.mk.injEq] at h
    omega

theorem update_wall_count {g : Game} {cands : List Vec2} {g' : Game}
    {c' : List Vec2} {n : Nat}
    (h : Game.update g cands = some (g', c', n)) : n ≤ 1 := by
  simp only [Game.update] at h
  split at h
  · split at h
    · exact absurd h (by simp)
    next cands1 fruits' a' sc' sp' hfood =>
      split at h
      · exact absurd h (by simp)
      next g3 c3 n3 hedges =>
        obtain ⟨hn3, hstart⟩ := checkEdges_signal hedges
        rcases Nat.lt_or_ge n3 1 with h1 | h1
        · have := checkTail_signal h
          omega
        · have hb3 := hstart h1
          rw [checkTail_no_fire_start hb3] at h
          simp only [Option.some.injEq, Prod.mk.injEq] at h
          omega
  · simp only [Option.some.injEq, Prod.mk.injEq] at h
    omega

/-- C9 counterexample: the claim is false — there is **no** game state
(reachable or not) from which one `Update()` emits two or more
wall-collision signals, because each terminal check calls `GameOver()`
before playing its sound and `GameOver()` resets the snake to its
in-bounds, non-self-intersecting initial layout, which cannot retrigger
the later checks. -/
theorem dualFire_counterexample :
    ¬ ∃ (g : Game) (cands : List Vec2) (g' : Game) (c' : List Vec2) (n : Nat),
        Game.update g cands = some (g', c', n) ∧ 2 ≤ n := by
  rintro ⟨g, cands, g', c', n, h, hn⟩
  have := update_wall_count h
  omega

/-- C9 (amended): within any single `tick()` (`Game::Update`), at most
one collision signal is emitted: the edge and tail checks can never
both fire in the same tick, because a firing check's `GameOver()` call
resets the snake before the remaining checks run. -/
theorem update_single_collision_signal (g : Game) (cands : List Vec2)
    (g' : Game) (c' : List Vec2) (n : Nat)
    (h : Game.update g cands = some (g', c', n)) : n ≤ 1 :=
  update_wall_count h

def wallDemoIn : Game :=
  { score := 0
    speed := 1 / 5
    running := true
    game_over := false
    snake :=
      { addSegment := false
        body := [⟨24, 9⟩, ⟨23, 9⟩]
        direction := ⟨1, 0⟩ }
    fruits := []
    high_score := 0
    temp_score := 0 }

def wallDemoOut : Game :=
  { score := 0
    speed := 1 / 5
    running := false
    game_over := true
    snake :=
      { addSegment := false
        body := [⟨6, 9⟩, ⟨5, 9⟩, ⟨4, 9⟩]
        direction := ⟨1, 0⟩ }
    fruits := [⟨0, 0⟩, ⟨0, 1⟩, ⟨0, 2⟩]
    high_score := 0
    temp_score := 0 }

theorem update_single_collision_signal_witness :
    Game.update wallDemoIn [⟨0, 0⟩, ⟨0, 1⟩, ⟨0, 2⟩] =
      some (wallDemoOut, [], 1) ∧ 1 ≤ 1 :=
  ⟨by rfl,
    update_single_collision_signal wallDemoIn [⟨0, 0⟩, ⟨0, 1⟩, ⟨0, 2⟩]
      wallDemoOut [] 1 (by rfl)⟩
